import Mathlib

/-!
Verification development for the lesson-creation orchestration pipeline of the
learning-platform repository.

The TypeScript sources are shallowly embedded as total Lean functions:

* JavaScript strings are Lean `String`s (lists of characters); the embedding
  restricts JS whitespace to the ASCII whitespace characters that actually
  occur in the pipeline (space, tab, CR, LF).
* JS truthiness on optional strings (`undefined` and `""` are falsy) is made
  explicit via `truthyStr` / `jsOr`.
* Network-bound collaborators (the Supadata transcript capability, the Gemini
  generation capability, the Prisma store) are modelled as oracles passed in
  explicitly; a call that throws is modelled by an explicit error constructor.
  `console.log`/`console.error` calls are effect-free and omitted.
* Loops whose bound is data-driven (retry loops, the poll loop) are embedded
  structurally with an explicit fuel argument that provably dominates the
  number of iterations performed by the source loop.
-/

/-- ASCII model of the JS `\s` character class / `String.prototype.trim`. -/
def isWS (c : Char) : Bool :=
  c == ' ' || c == '\t' || c == '\n' || c == '\r'

/-- The punctuation class `[,.!?]` used by `cleanTranscript`. -/
def isPunct (c : Char) : Bool :=
  c == ',' || c == '.' || c == '!' || c == '?'

/-- The character class `[a-zA-Z0-9_-]` of YouTube video-id characters. -/
def isIdChar (c : Char) : Bool :=
  ('a' ≤ c && c ≤ 'z') || ('A' ≤ c && c ≤ 'Z') || ('0' ≤ c && c ≤ '9')
    || c == '_' || c == '-'

/-- JS truthiness of an optional string (`undefined` and `""` are falsy). -/
def truthyStr : Option String → Bool
  | none => false
  | some s => !(s == "")

/-- JS `a || b` on an optional string `a` with string default `b`. -/
def jsOr : Option String → String → String
  | none, d => d
  | some s, d => if s == "" then d else s

/-- Drop trailing whitespace (the right half of `String.prototype.trim`). -/
def dropTrailingWs (l : List Char) : List Char :=
  (l.reverse.dropWhile isWS).reverse

/-- `String.prototype.trim` on the character list. -/
def jsTrim (l : List Char) : List Char :=
  dropTrailingWs (l.dropWhile isWS)

/-- `String.prototype.trim`. -/
def jsTrimStr (s : String) : String :=
  ⟨jsTrim s.data⟩

/-! ## URL Normalizer (`src/lib/utils/youtube.ts`)

Each of the five regular expressions tried by `extractVideoId` consists of
optional non-capturing prefixes (`(?:https?:\/\/)?`, `(?:www\.)?`), a
mandatory literal core (e.g. `youtube\.com\/watch\?v=`), and the capture
group `([a-zA-Z0-9_-]{11})`.  Because the prefixes are optional, a position
admits a match exactly when the literal core occurs there followed by at
least 11 id-characters, and the captured group is determined by the position
of the core alone; since the core cannot overlap itself closer than its own
length, the leftmost regex match captures the 11 characters after the first
occurrence of the core that is followed by 11 id-characters.  `scanPattern`
implements exactly that search. -/

/-- Capture `([a-zA-Z0-9_-]{11})`: the next 11 characters, provided they are
all id-characters. -/
def takeId (cs : List Char) : Option (List Char) :=
  if (cs.take 11).length == 11 && (cs.take 11).all isIdChar then
    some (cs.take 11)
  else none

/-- Leftmost match of (literal core ++ 11 id-characters); returns the capture. -/
def scanPattern (core : List Char) : List Char → Option (List Char)
  | [] => none
  | c :: cs =>
    if core.isPrefixOf (c :: cs) then
      match takeId ((c :: cs).drop core.length) with
      | some id => some id
      | none => scanPattern core cs
    else scanPattern core cs

/-- The mandatory literal cores of the five patterns of `extractVideoId`, in
source order (standard, short link, mobile, no-www, embed). -/
def watchCore : List Char := "youtube.com/watch?v=".data
def shortCore : List Char := "youtu.be/".data
def mobileCore : List Char := "m.youtube.com/watch?v=".data
def embedCore : List Char := "youtube.com/embed/".data

/-- The `for (const pattern of patterns)` loop of `extractVideoId`: first
pattern whose match succeeds wins (the fourth pattern repeats the first, as in
the source, where the no-`www` variant is subsumed by the first regex). -/
def tryPatterns (cleanUrl : List Char) : Option (List Char) :=
  match scanPattern watchCore cleanUrl with
  | some id => some id
  | none =>
    match scanPattern shortCore cleanUrl with
    | some id => some id
    | none =>
      match scanPattern mobileCore cleanUrl with
      | some id => some id
      | none =>
        match scanPattern watchCore cleanUrl with
        | some id => some id
        | none => scanPattern embedCore cleanUrl

/-- `extractVideoId(url)`: `null`/empty check, then try the patterns in order
on the trimmed input. -/
def extractVideoId (url : String) : Option String :=
  if url == "" then none
  else Option.map String.mk (tryPatterns (jsTrim url.data))

structure YouTubeVideoInfo where
  videoId : String
  url : String
  isValid : Bool
  deriving Repr, DecidableEq

/-- `parseYouTubeUrl(url)`. -/
def parseYouTubeUrl (url : String) : YouTubeVideoInfo :=
  match extractVideoId url with
  | some id => ⟨id, url, true⟩
  | none => ⟨"", url, false⟩

/-- `generateYouTubeUrl(videoId)`; the `throw` is modelled as `Except.error`. -/
def generateYouTubeUrl (videoId : String) : Except String String :=
  if videoId == "" || !(videoId.length == 11) then
    .error "Invalid YouTube video ID"
  else
    .ok ("https://www.youtube.com/watch?v=" ++ videoId)

/-- `normalizeYouTubeUrl(url)`; the `throw` is modelled as `Except.error`. -/
def normalizeYouTubeUrl (url : String) : Except String String :=
  match extractVideoId url with
  | none => .error "Invalid YouTube URL"
  | some videoId => generateYouTubeUrl videoId

/-! ### Lemmas about the URL normalizer -/

lemma takeId_sound {cs ys : List Char} (h : takeId cs = some ys) :
    ys.length = 11 ∧ ys.all isIdChar = true := by
  unfold takeId at h
  split at h
  · next hc =>
    cases h
    rw [Bool.and_eq_true] at hc
    exact ⟨by simpa using hc.1, hc.2⟩
  · cases h

lemma scanPattern_sound {core cs ys : List Char}
    (h : scanPattern core cs = some ys) :
    ys.length = 11 ∧ ys.all isIdChar = true := by
  induction cs with
  | nil => simp [scanPattern] at h
  | cons c cs ih =>
    rw [scanPattern] at h
    split at h
    · split at h
      · next id heq => cases h; exact takeId_sound heq
      · exact ih h
    · exact ih h

lemma tryPatterns_sound {cs ys : List Char} (h : tryPatterns cs = some ys) :
    ys.length = 11 ∧ ys.all isIdChar = true := by
  unfold tryPatterns at h
  split at h
  · next heq => cases h; exact scanPattern_sound heq
  · split at h
    · next heq => cases h; exact scanPattern_sound heq
    · split at h
      · next heq => cases h; exact scanPattern_sound heq
      · split at h
        · next heq => exact absurd heq (by simp)
        · exact scanPattern_sound h

lemma extractVideoId_sound {u id : String} (h : extractVideoId u = some id) :
    id.data.length = 11 ∧ id.data.all isIdChar = true := by
  unfold extractVideoId at h
  split at h
  · cases h
  · obtain ⟨ys, hys, hid⟩ := Option.map_eq_some'.mp h
    cases hid
    exact tryPatterns_sound hys

lemma not_ws_of_idChar {c : Char} (h : isIdChar c = true) : isWS c = false := by
  cases hws : isWS c
  · rfl
  · exfalso
    simp only [isWS, Bool.or_eq_true, beq_iff_eq] at hws
    rcases hws with ((h1 | h1) | h1) | h1 <;> subst h1 <;>
      exact absurd h (by decide)

lemma isPrefixOf_append_self (l t : List Char) : l.isPrefixOf (l ++ t) = true := by
  induction l with
  | nil => simp [List.isPrefixOf]
  | cons x xs ih => simp [List.isPrefixOf, ih]

lemma scanPattern_skip {y : Char} {core : List Char} (pre rest : List Char)
    (hp : ∀ c ∈ pre, c ≠ y) :
    scanPattern (y :: core) (pre ++ rest) = scanPattern (y :: core) rest := by
  induction pre with
  | nil => rfl
  | cons a pre ih =>
    have ha : (y == a) = false := by
      rw [beq_eq_false_iff_ne]
      exact fun he => hp a (List.mem_cons_self a pre) he.symm
    rw [List.cons_append, scanPattern]
    simp only [List.isPrefixOf, ha, Bool.false_and, Bool.false_eq_true, if_false]
    exact ih (fun c hc => hp c (List.mem_cons_of_mem a hc))

lemma takeId_self {ys : List Char} (hlen : ys.length = 11)
    (hall : ys.all isIdChar = true) : takeId ys = some ys := by
  unfold takeId
  rw [show ys.take 11 = ys from by rw [← hlen, List.take_length]]
  simp [hlen, hall]

lemma scanPattern_exact {c : Char} {core' ys : List Char}
    (h : takeId ys = some ys) :
    scanPattern (c :: core') ((c :: core') ++ ys) = some ys := by
  rw [List.cons_append, scanPattern]
  simp only [← List.cons_append, isPrefixOf_append_self, if_true]
  rw [show ((c :: core') ++ ys).drop (c :: core').length = ys from
    List.drop_left (c :: core') ys]
  rw [h]

lemma dropWhile_eq_self (p : Char → Bool) (l : List Char)
    (h : ∀ c, l.head? = some c → p c = false) : l.dropWhile p = l := by
  cases l with
  | nil => rfl
  | cons a t => simp [List.dropWhile_cons, h a rfl]

lemma jsTrim_eq_self {l : List Char}
    (h1 : ∀ c, l.head? = some c → isWS c = false)
    (h2 : ∀ c, l.getLast? = some c → isWS c = false) : jsTrim l = l := by
  unfold jsTrim dropTrailingWs
  rw [dropWhile_eq_self isWS l h1]
  rw [dropWhile_eq_self isWS l.reverse
    (fun c hc => h2 c (by rwa [List.head?_reverse] at hc))]
  exact List.reverse_reverse l

lemma mem_of_getLast?_eq {l : List Char} {c : Char} (h : l.getLast? = some c) :
    c ∈ l := by
  have h2 : l.reverse.head? = some c := by rw [List.head?_reverse]; exact h
  have : c ∈ l.reverse := List.mem_of_mem_head? (by simp [h2])
  simpa using this

lemma extract_of_normalized {id : String} (hlen : id.data.length = 11)
    (hall : id.data.all isIdChar = true) :
    extractVideoId ("https://www.youtube.com/watch?v=" ++ id) = some id := by
  have hidne : id.data ≠ [] := by
    intro he; rw [he] at hlen; cases hlen
  have hne : (("https://www.youtube.com/watch?v=" ++ id) == "") = false := by
    rw [beq_eq_false_iff_ne]
    intro h
    have hd := congrArg String.data h
    rw [String.data_append] at hd
    rcases List.append_eq_nil.mp hd with ⟨h1, _⟩
    exact absurd h1 (by decide)
  have htrim : jsTrim ("https://www.youtube.com/watch?v=" ++ id).data =
      "https://www.youtube.com/watch?v=".data ++ id.data := by
    rw [String.data_append]
    refine jsTrim_eq_self ?_ ?_
    · intro c hc
      rw [show ("https://www.youtube.com/watch?v=".data : List Char) =
        'h' :: "ttps://www.youtube.com/watch?v=".data from by decide,
        List.cons_append] at hc
      cases hc
      decide
    · intro c hc
      rw [List.getLast?_append_of_ne_nil _ hidne] at hc
      have hmem := mem_of_getLast?_eq hc
      exact not_ws_of_idChar (List.all_eq_true.mp hall c hmem)
  have hscan : scanPattern watchCore
      ("https://www.youtube.com/watch?v=".data ++ id.data) = some id.data := by
    rw [show ("https://www.youtube.com/watch?v=".data : List Char) =
      "https://www.".data ++ watchCore from by decide, List.append_assoc]
    rw [show (watchCore : List Char) = 'y' :: "outube.com/watch?v=".data from by decide]
    rw [scanPattern_skip _ _ (by decide)]
    exact scanPattern_exact (takeId_self hlen hall)
  have htry : tryPatterns (jsTrim ("https://www.youtube.com/watch?v=" ++ id).data) =
      some id.data := by
    rw [htrim]
    unfold tryPatterns
    rw [hscan]
  unfold extractVideoId
  rw [hne]
  simp only [Bool.false_eq_true, if_false, htry, Option.map_some']

lemma normalizeYouTubeUrl_ok {u id : String} (h : extractVideoId u = some id) :
    normalizeYouTubeUrl u = .ok ("https://www.youtube.com/watch?v=" ++ id) := by
  obtain ⟨hlen, hall⟩ := extractVideoId_sound h
  have hgen : generateYouTubeUrl id = .ok ("https://www.youtube.com/watch?v=" ++ id) := by
    unfold generateYouTubeUrl
    have h1 : (id == "") = false := by
      rw [beq_eq_false_iff_ne]
      intro he
      subst he
      cases hlen
    have h2 : (id.length == 11) = true := by
      have hl : id.length = 11 := hlen
      simp [hl]
    rw [h1, h2]
    simp
  unfold normalizeYouTubeUrl
  rw [h]
  exact hgen

/-- C9: for every valid video URL `u` — one from which an 11-character video
id is extractable — `normalizeYouTubeUrl u` succeeds, and normalization is
idempotent: normalizing the normalized URL returns it unchanged
(`normalize(normalize(u)) = normalize(u)`). -/
theorem normalizeYouTubeUrl_idempotent (u id : String)
    (h : extractVideoId u = some id) :
    normalizeYouTubeUrl u = .ok ("https://www.youtube.com/watch?v=" ++ id) ∧
    normalizeYouTubeUrl ("https://www.youtube.com/watch?v=" ++ id) =
      .ok ("https://www.youtube.com/watch?v=" ++ id) := by
  obtain ⟨hlen, hall⟩ := extractVideoId_sound h
  exact ⟨normalizeYouTubeUrl_ok h,
    normalizeYouTubeUrl_ok (extract_of_normalized hlen hall)⟩

/-- Witness for C9 at the short-link URL `https://youtu.be/dQw4w9WgXcQ`. -/
theorem normalizeYouTubeUrl_idempotent_witness :
    normalizeYouTubeUrl "https://youtu.be/dQw4w9WgXcQ" =
      .ok ("https://www.youtube.com/watch?v=" ++ "dQw4w9WgXcQ") ∧
    normalizeYouTubeUrl ("https://www.youtube.com/watch?v=" ++ "dQw4w9WgXcQ") =
      .ok ("https://www.youtube.com/watch?v=" ++ "dQw4w9WgXcQ") :=
  normalizeYouTubeUrl_idempotent "https://youtu.be/dQw4w9WgXcQ" "dQw4w9WgXcQ" (by decide)

/-! ## Transcript Extraction Client (`src/lib/services/transcriptService.ts`)

The Supadata SDK is the external capability.  One `extractTranscript`
invocation makes at most one `supadata.transcript(...)` call and (on a job
response) one `supadata.transcript.getJobStatus(...)` call; both are modelled
by a `SupadataEnv` value describing their outcomes.  A call that throws is
modelled by the `throwErr` constructor carrying the `Error` message. -/

/-- Status strings that can flow through the client (the `as "processing"`
cast in `checkTranscriptStatus` passes raw job statuses through). -/
inductive TStatus where
  | completed
  | processing
  | failed
  | queued
  | active
  deriving Repr, DecidableEq, BEq

/-- The `TranscriptResponse` interface. -/
structure TranscriptResponse where
  success : Bool
  transcript : Option String := none
  error : Option String := none
  jobId : Option String := none
  status : Option TStatus := none
  deriving Repr, DecidableEq

/-- Outcome of one `supadata.transcript(...)` call. -/
inductive SupadataResult where
  /-- The call throws with the given `Error` message. -/
  | throwErr (msg : String)
  /-- A non-job response; the field chain `transcript.content` as an optional
  string (absent or empty is falsy). -/
  | inline (content : Option String)
  /-- A response carrying a `jobId` field. -/
  | job (jobId : String)
  deriving Repr

/-- Outcome of one `getJobStatus(...)` call: either a throw, or a response
with a raw status, the optional extracted `content` chain, and the optional
`error` field. -/
inductive JobCheck where
  | throwErr (msg : String)
  | status (st : TStatus) (content : Option String) (error : Option String)
  deriving Repr

/-- The two external calls one `extractTranscript` invocation can make. -/
structure SupadataEnv where
  call : SupadataResult
  jobStatus : JobCheck

/-- `extractTranscript(videoUrl)` (the Supadata-SDK version, lines 22-98).
Every failure path runs through the single `catch`, which returns
`success: false` with the raw `Error` message; there is no fallback
extraction path in the source. -/
def extractTranscript (env : SupadataEnv) : TranscriptResponse :=
  match env.call with
  | .throwErr msg => { success := false, error := some msg }
  | .job jobId =>
    match env.jobStatus with
    | .throwErr msg => { success := false, error := some msg }
    | .status st content err =>
      if st == .completed then
        match content with
        | some c =>
          if c == "" then
            -- falsy content: falls through to `throw new Error(...)`, caught
            { success := false, error := some "No transcript content found in response" }
          else { success := true, transcript := some c }
        | none =>
          { success := false, error := some "No transcript content found in response" }
      else if st == .failed then
        -- `throw new Error(jobResult.error || "Transcript job failed")`, caught
        { success := false, error := some (jsOr err "Transcript job failed") }
      else
        { success := true, jobId := some jobId, status := some .processing }
  | .inline content =>
    match content with
    | some c =>
      if c == "" then
        { success := false, error := some "No transcript content found in response" }
      else { success := true, transcript := some c }
    | none =>
      { success := false, error := some "No transcript content found in response" }

/-- `checkTranscriptStatus(jobId)`: one `getJobStatus` call per invocation. -/
def checkTranscriptStatus (check : JobCheck) (jobId : String) : TranscriptResponse :=
  match check with
  | .throwErr _ => { success := false, error := some "Failed to check transcript status" }
  | .status st content err =>
    if st == .completed && truthyStr content then
      { success := true, status := some .completed, transcript := content }
    else if st == .failed then
      { success := false, status := some .failed,
        error := some (jsOr err "Transcript extraction failed") }
    else
      { success := true, status := some st, jobId := some jobId }

/-- The timeout result of `pollTranscriptJob`. -/
def pollTimeoutResponse : TranscriptResponse :=
  { success := false, error := some "Transcript extraction timed out" }

/-- The `while (Date.now() - startTime < maxPollTime)` loop of
`pollTranscriptJob`.  Model time: only the `setTimeout(pollInterval)` sleeps
advance the clock, so iteration `n` starts at elapsed time `n * pollInterval`.
`checks n` is the outcome of the `n`-th `getJobStatus` call.  The explicit
fuel dominates the iteration count whenever `pollInterval > 0` (each
iteration adds at least 1 ms, so at most `maxPollTime` iterations run); on
fuel exhaustion the loop-exit result is returned. -/
def pollGo (checks : Nat → JobCheck) (jobId : String)
    (pollInterval maxPollTime : Nat) : Nat → Nat → Nat → TranscriptResponse
  | _, _, 0 => pollTimeoutResponse
  | n, elapsed, fuel + 1 =>
    if elapsed < maxPollTime then
      if (checkTranscriptStatus (checks n) jobId).status == some .completed
          && truthyStr (checkTranscriptStatus (checks n) jobId).transcript then
        checkTranscriptStatus (checks n) jobId
      else if (checkTranscriptStatus (checks n) jobId).status == some .failed then
        checkTranscriptStatus (checks n) jobId
      else
        pollGo checks jobId pollInterval maxPollTime (n + 1) (elapsed + pollInterval) fuel
    else pollTimeoutResponse

/-- `pollTranscriptJob(jobId, pollInterval, maxPollTime = 300000)`. -/
def pollTranscriptJob (checks : Nat → JobCheck) (jobId : String)
    (pollInterval : Nat) (maxPollTime : Nat := 300000) : TranscriptResponse :=
  pollGo checks jobId pollInterval maxPollTime 0 0 (maxPollTime + 1)

/-- The `while (attempt < maxRetries)` loop of `extractTranscriptWithRetry`.
`calls n` describes the external calls of the `n`-th `extractTranscript`
attempt.  The fuel maintains `fuel = maxRetries - attempt`, matching the
loop guard (the loop continues only when `attempt + 1 < maxRetries`, so the
fuel-0 branch is exactly the `return` after the loop). -/
def extractRetryGo (calls : Nat → SupadataEnv) (checks : Nat → JobCheck)
    (maxRetries pollInterval : Nat) : Nat → Nat → TranscriptResponse
  | _, 0 => { success := false, error := some "Max retries exceeded" }
  | attempt, fuel + 1 =>
    if (extractTranscript (calls attempt)).success
        && truthyStr (extractTranscript (calls attempt)).transcript then
      extractTranscript (calls attempt)
    else if (extractTranscript (calls attempt)).success
        && truthyStr (extractTranscript (calls attempt)).jobId then
      pollTranscriptJob checks ((extractTranscript (calls attempt)).jobId.getD "")
        pollInterval
    else if !(extractTranscript (calls attempt)).success then
      if attempt + 1 < maxRetries then
        extractRetryGo calls checks maxRetries pollInterval (attempt + 1) fuel
      else extractTranscript (calls attempt)
    else extractTranscript (calls attempt)

/-- `extractTranscriptWithRetry(videoUrl, maxRetries = 3, pollInterval = 5000)`. -/
def extractTranscriptWithRetry (calls : Nat → SupadataEnv)
    (checks : Nat → JobCheck) (maxRetries : Nat := 3)
    (pollInterval : Nat := 5000) : TranscriptResponse :=
  extractRetryGo calls checks maxRetries pollInterval 0 maxRetries

/-! ### Lemmas about polling and extraction retry -/

lemma tstatusBeqSelf (a : TStatus) : (a == a) = true := by
  cases a <;> rfl

lemma optTStatusBeq (a b : TStatus) :
    ((some a : Option TStatus) == some b) = (a == b) := rfl

/-- The response `checkTranscriptStatus` gives for a still-processing job. -/
lemma checkStatus_processing (jobId : String) :
    checkTranscriptStatus (.status .processing none none) jobId =
      { success := true, status := some .processing, jobId := some jobId } := by
  rfl

lemma pollGo_timeout (checks : Nat → JobCheck) (jobId : String) (pI mPT : Nat)
    (h : ∀ m, checks m = .status .processing none none) :
    ∀ fuel n elapsed,
      pollGo checks jobId pI mPT n elapsed fuel = pollTimeoutResponse := by
  intro fuel
  induction fuel with
  | zero => intro n elapsed; rfl
  | succ fuel ih =>
    intro n elapsed
    rw [pollGo]
    split
    · rw [h n, checkStatus_processing]
      rw [if_neg (fun hcon => Bool.noConfusion hcon),
        if_neg (fun hcon => Bool.noConfusion hcon)]
      exact ih (n + 1) (elapsed + pI)
    · rfl

lemma pollGo_reach (checks : Nat → JobCheck) (jobId : String) (pI mPT : Nat)
    (hpI : 0 < pI) :
    ∀ (k n elapsed fuel : Nat),
      (∀ m, m < k → checks (n + m) = .status .processing none none) →
      (((checkTranscriptStatus (checks (n + k)) jobId).status == some .completed
          && truthyStr (checkTranscriptStatus (checks (n + k)) jobId).transcript) = true
        ∨ (((checkTranscriptStatus (checks (n + k)) jobId).status == some .completed
          && truthyStr (checkTranscriptStatus (checks (n + k)) jobId).transcript) = false
          ∧ ((checkTranscriptStatus (checks (n + k)) jobId).status == some .failed) = true)) →
      elapsed + k * pI < mPT →
      mPT ≤ elapsed + fuel →
      pollGo checks jobId pI mPT n elapsed fuel =
        checkTranscriptStatus (checks (n + k)) jobId := by
  intro k
  induction k with
  | zero =>
    intro n elapsed fuel hproc hterm htime hfuel
    rw [Nat.zero_mul, Nat.add_zero] at htime
    match fuel with
    | 0 => omega
    | fuel + 1 =>
      simp only [Nat.add_zero] at hterm ⊢
      rw [pollGo, if_pos htime]
      rcases hterm with hterm | ⟨hne, hf⟩
      · rw [if_pos hterm]
      · rw [if_neg (by simp [hne]), if_pos hf]
  | succ k ih =>
    intro n elapsed fuel hproc hterm htime hfuel
    have hstep : elapsed + pI + k * pI < mPT := by
      rw [Nat.succ_mul] at htime; omega
    have he : elapsed < mPT := by omega
    match fuel with
    | 0 => omega
    | fuel + 1 =>
      rw [pollGo, if_pos he]
      have hm := hproc 0 (Nat.succ_pos k)
      rw [Nat.add_zero] at hm
      rw [hm, checkStatus_processing]
      rw [if_neg (fun hcon => Bool.noConfusion hcon),
        if_neg (fun hcon => Bool.noConfusion hcon)]
      have hgoal := ih (n + 1) (elapsed + pI) fuel
        (fun m hm' => by
          have := hproc (m + 1) (by omega)
          rwa [show n + (m + 1) = n + 1 + m by omega] at this)
        (by rwa [show n + 1 + k = n + (k + 1) by omega])
        hstep (by omega)
      rw [hgoal, show n + 1 + k = n + (k + 1) by omega]

lemma extractRetryGo_handoff (calls : Nat → SupadataEnv) (checks : Nat → JobCheck)
    (maxRetries pI : Nat) (j : String) (hj : (j == "") = false) :
    ∀ (i attempt fuel : Nat),
      attempt + i < maxRetries →
      attempt + fuel = maxRetries →
      (∀ m, m < i → (extractTranscript (calls (attempt + m))).success = false) →
      extractTranscript (calls (attempt + i)) =
        { success := true, jobId := some j, status := some .processing } →
      extractRetryGo calls checks maxRetries pI attempt fuel =
        pollTranscriptJob checks j pI := by
  intro i
  induction i with
  | zero =>
    intro attempt fuel hbound hfuel hfail hjob
    match fuel with
    | 0 => omega
    | fuel + 1 =>
      rw [Nat.add_zero] at hjob
      rw [extractRetryGo, hjob]
      rw [if_neg (fun hcon => Bool.noConfusion hcon)]
      rw [if_pos (by simp [truthyStr, hj])]
      simp [Option.getD_some]
  | succ i ih =>
    intro attempt fuel hbound hfuel hfail hjob
    match fuel with
    | 0 => omega
    | fuel + 1 =>
      have h0 : (extractTranscript (calls attempt)).success = false := by
        have := hfail 0 (Nat.succ_pos i)
        rwa [Nat.add_zero] at this
      rw [extractRetryGo, h0]
      simp only [Bool.false_and, Bool.not_false]
      rw [if_neg (by simp), if_neg (by simp), if_pos (by simp),
        if_pos (show attempt + 1 < maxRetries by omega)]
      exact ih (attempt + 1) fuel (by omega) (by omega)
        (fun m hm' => by
          have := hfail (m + 1) (by omega)
          rwa [show attempt + (m + 1) = attempt + 1 + m by omega] at this)
        (by rwa [show attempt + 1 + i = attempt + (i + 1) by omega])

/-- C4: polling commitment and timeout for `extractTranscriptWithRetry` /
`pollTranscriptJob`.  With `i < maxRetries` failing attempts followed by an
attempt that yields a job id `j`, the retry loop hands off to polling that
one job (with the default 5-minute budget) and the result is exactly the
poll result — no further extraction attempt can influence it.  Polling
itself (for any budget `mPT`): a job that stays `processing` until check
`k₁` returns `completed` with transcript text within the budget yields that
completed response; a job that fails at check `k₂` within the budget yields
the failed response immediately; and a job that never leaves `processing`
yields `success = false` with the timeout error rather than looping
forever. -/
theorem extractTranscriptWithRetry_poll_spec
    (calls : Nat → SupadataEnv) (check₁ check₂ check₃ : Nat → JobCheck)
    (maxRetries pI mPT i k₁ k₂ : Nat) (j t : String)
    (hpI : 0 < pI)
    (hj : (j == "") = false)
    (hi : i < maxRetries)
    (hfail : ∀ m, m < i → (extractTranscript (calls m)).success = false)
    (hjob : extractTranscript (calls i) =
      { success := true, jobId := some j, status := some .processing })
    (h1p : ∀ m, m < k₁ → check₁ m = .status .processing none none)
    (h1c : check₁ k₁ = .status .completed (some t) none)
    (ht : (t == "") = false)
    (h1time : k₁ * pI < mPT)
    (h2p : ∀ m, m < k₂ → check₂ m = .status .processing none none)
    (h2f : check₂ k₂ = .status .failed none none)
    (h2time : k₂ * pI < mPT)
    (h3 : ∀ m, check₃ m = .status .processing none none) :
    extractTranscriptWithRetry calls check₁ maxRetries pI =
      pollTranscriptJob check₁ j pI
    ∧ pollTranscriptJob check₁ j pI mPT =
      { success := true, transcript := some t, status := some .completed }
    ∧ pollTranscriptJob check₂ j pI mPT =
      { success := false, status := some .failed,
        error := some "Transcript extraction failed" }
    ∧ pollTranscriptJob check₃ j pI mPT = pollTimeoutResponse := by
  refine ⟨?_, ?_, ?_, ?_⟩
  · exact extractRetryGo_handoff calls check₁ maxRetries pI j hj i 0 maxRetries
      (by omega) (by omega)
      (fun m hm => by simpa using hfail m hm)
      (by simpa using hjob)
  · have hc : checkTranscriptStatus (check₁ (0 + k₁)) j =
        { success := true, status := some .completed, transcript := some t } := by
      rw [Nat.zero_add, h1c, checkTranscriptStatus]
      rw [if_pos (by simp [truthyStr, ht, tstatusBeqSelf])]
    have := pollGo_reach check₁ j pI mPT hpI k₁ 0 0 (mPT + 1)
      (fun m hm => by simpa using h1p m hm)
      (by rw [hc]; left; simp [truthyStr, ht, tstatusBeqSelf, optTStatusBeq])
      (by omega) (by omega)
    rw [pollTranscriptJob, this, hc]
  · have hc : checkTranscriptStatus (check₂ (0 + k₂)) j =
        { success := false, status := some .failed,
          error := some "Transcript extraction failed" } := by
      rw [Nat.zero_add, h2f]
      rfl
    have := pollGo_reach check₂ j pI mPT hpI k₂ 0 0 (mPT + 1)
      (fun m hm => by simpa using h2p m hm)
      (by rw [hc]; right; exact ⟨by decide, by decide⟩)
      (by omega) (by omega)
    rw [pollTranscriptJob, this, hc]
  · exact pollGo_timeout check₃ j pI mPT h3 (mPT + 1) 0 0

/-- Extraction oracle for the C4 witness: attempt 0 throws, attempt 1 yields
a job handle. -/
def c4Calls : Nat → SupadataEnv := fun n =>
  if n = 0 then ⟨.throwErr "network error", .status .processing none none⟩
  else ⟨.job "job-1", .status .queued none none⟩

/-- Status oracle that completes with text at the third check. -/
def c4CheckCompleted : Nat → JobCheck := fun n =>
  if n < 2 then .status .processing none none
  else .status .completed (some "the transcript text") none

/-- Status oracle that fails at the second check. -/
def c4CheckFailed : Nat → JobCheck := fun n =>
  if n = 0 then .status .processing none none
  else .status .failed none none

/-- Status oracle for a job that never leaves `processing`. -/
def c4CheckStuck : Nat → JobCheck := fun _ => .status .processing none none

/-- Witness for C4: one failing attempt, then a job handle polled with a
10 ms interval against a 100 ms budget. -/
theorem extractTranscriptWithRetry_poll_spec_witness :
    extractTranscriptWithRetry c4Calls c4CheckCompleted 3 10 =
      pollTranscriptJob c4CheckCompleted "job-1" 10
    ∧ pollTranscriptJob c4CheckCompleted "job-1" 10 100 =
      { success := true, transcript := some "the transcript text",
        status := some .completed }
    ∧ pollTranscriptJob c4CheckFailed "job-1" 10 100 =
      { success := false, status := some .failed,
        error := some "Transcript extraction failed" }
    ∧ pollTranscriptJob c4CheckStuck "job-1" 10 100 = pollTimeoutResponse :=
  extractTranscriptWithRetry_poll_spec c4Calls c4CheckCompleted c4CheckFailed
    c4CheckStuck 3 10 100 1 2 1 "job-1" "the transcript text"
    (by decide) (by decide) (by decide)
    (fun m hm => by interval_cases m; decide)
    (by decide)
    (fun m hm => by interval_cases m <;> rfl)
    rfl (by decide) (by decide)
    (fun m hm => by interval_cases m; rfl)
    rfl (by decide)
    (fun _ => rfl)

/-- C5 (counterexample): the claim says that when the external transcript
capability call inside `extractTranscript` errors, the function attempts one
fallback extraction path and, failing that, returns a user-facing
multi-reason explanation (missing captions, private video, too-new video,
geo-restriction).  In the source there is no fallback path at all — an
invocation makes only the one `supadata.transcript` call (plus at most one
`getJobStatus` call for job responses) — and the single `catch` returns the
raw exception message: here the raw message `"fetch failed"`, not a
multi-reason explanation. -/
theorem extractTranscript_error_counterexample :
    extractTranscript ⟨.throwErr "fetch failed", .status .processing none none⟩ =
      { success := false, error := some "fetch failed" } := rfl

/-- C5 (amended): when the external transcript capability call inside
`extractTranscript` errors, no fallback extraction path is attempted; the
`catch` returns `success = false` carrying the raw `Error` message. -/
theorem extractTranscript_error_raw (env : SupadataEnv) (msg : String)
    (h : env.call = .throwErr msg) :
    extractTranscript env = { success := false, error := some msg } := by
  unfold extractTranscript
  rw [h]

/-- Witness for the amended C5 at a concrete throwing capability. -/
theorem extractTranscript_error_raw_witness :
    extractTranscript ⟨.throwErr "boom", .status .processing none none⟩ =
      { success := false, error := some "boom" } :=
  extractTranscript_error_raw ⟨.throwErr "boom", .status .processing none none⟩
    "boom" rfl

/-! ## `cleanTranscript` (`src/lib/services/transcriptService.ts`)

The four chained `.replace` passes and the final `.trim` are embedded one
pass at a time.  Global regex replacement scans the input left to right for
non-overlapping matches, so each pass is a single left-to-right traversal:

* `.replace(/\s+/g, " ")` — every maximal whitespace run becomes one space;
* `.replace(/\[.*?\]/g, "")` — lazy matching removes, repeatedly, the text
  from an unmatched `[` to the first `]` after it (a `[` with no later `]`
  survives, and then no later `]` exists at all);
* `.replace(/\(.*?\)/g, "")` — same for parentheses;
* `.replace(/\s+([,.!?])/g, "$1")` — a maximal whitespace run immediately
  followed by punctuation is deleted, keeping the punctuation.

(`.` does not match line terminators in JS, but pass 1 has already replaced
every line terminator by a space, so on the actual inputs of passes 2-4 the
any-character model is exact.) -/

/-- Pass 1, `\s+` → `" "`; the flag records whether the previous character
was part of a whitespace run. -/
def collapseWsAux : Bool → List Char → List Char
  | _, [] => []
  | inRun, c :: cs =>
    if isWS c then
      (if inRun then [] else [' ']) ++ collapseWsAux true cs
    else c :: collapseWsAux false cs

def collapseWs (l : List Char) : List Char :=
  collapseWsAux false l

/-- Passes 2-3, lazy delimiter removal; `pend` buffers (reversed) the
characters consumed since the currently open delimiter. -/
def stripDelimAux (op cl : Char) : List Char → List Char → List Char
  | pend, [] => pend.reverse
  | [], c :: cs =>
    if c = op then stripDelimAux op cl [c] cs
    else c :: stripDelimAux op cl [] cs
  | p :: ps, c :: cs =>
    if c = cl then stripDelimAux op cl [] cs
    else stripDelimAux op cl (c :: p :: ps) cs

def stripDelim (op cl : Char) (l : List Char) : List Char :=
  stripDelimAux op cl [] l

/-- Pass 4, `\s+([,.!?])` → `"$1"`; `pend` buffers (reversed) the current
whitespace run. -/
def fixPunctAux (pend : List Char) : List Char → List Char
  | [] => pend.reverse
  | c :: cs =>
    if isWS c then fixPunctAux (c :: pend) cs
    else if isPunct c then c :: fixPunctAux [] cs
    else pend.reverse ++ c :: fixPunctAux [] cs

def fixPunct (l : List Char) : List Char :=
  fixPunctAux [] l

/-- `cleanTranscript(transcript)`. -/
def cleanTranscript (transcript : String) : String :=
  if transcript == "" then ""
  else
    ⟨jsTrim (fixPunct (stripDelim '(' ')'
      (stripDelim '[' ']' (collapseWs transcript.data))))⟩

/-! ### Specification predicates for the cleaned output -/

/-- Every adjacent pair of characters satisfies `p`. -/
def pairwiseOK (p : Char → Char → Bool) : List Char → Bool
  | a :: b :: rest => p a b && pairwiseOK p (b :: rest)
  | _ => true

/-- No whitespace run longer than one character. -/
def noWsRun (s : String) : Bool :=
  pairwiseOK (fun a b => !(isWS a && isWS b)) s.data

/-- No whitespace immediately before `, . ! ?`. -/
def noWsBeforePunct (s : String) : Bool :=
  pairwiseOK (fun a b => !(isWS a && isPunct b)) s.data

/-- Some opening delimiter is followed (not necessarily adjacently) by a
closing one: a `[...]` / `(...)` annotation (or the frame of one) remains. -/
def hasDelimPair (op cl : Char) : List Char → Bool
  | [] => false
  | c :: cs => (c == op && cs.contains cl) || hasDelimPair op cl cs

/-! ### Lemmas about `cleanTranscript` -/

lemma dropWhile_head_false {p : Char → Bool} {l : List Char} {a : Char}
    {t : List Char} (h : l.dropWhile p = a :: t) : p a = false := by
  have := List.head?_dropWhile_not p l
  rw [h] at this
  simpa using this

lemma dropWhile_idem (p : Char → Bool) (l : List Char) :
    (l.dropWhile p).dropWhile p = l.dropWhile p := by
  cases h : l.dropWhile p with
  | nil => rfl
  | cons a t => simp [List.dropWhile_cons, dropWhile_head_false h]

lemma dropTrailingWs_decomp (x : List Char) :
    x = dropTrailingWs x ++ (x.reverse.takeWhile isWS).reverse :=
  calc x = x.reverse.reverse := (List.reverse_reverse x).symm
    _ = (x.reverse.takeWhile isWS ++ x.reverse.dropWhile isWS).reverse := by
        rw [List.takeWhile_append_dropWhile]
    _ = (x.reverse.dropWhile isWS).reverse ++ (x.reverse.takeWhile isWS).reverse := by
        rw [List.reverse_append]
    _ = dropTrailingWs x ++ (x.reverse.takeWhile isWS).reverse := rfl

lemma dropTrailingWs_sublist (x : List Char) :
    List.Sublist (dropTrailingWs x) x := by
  conv_rhs => rw [dropTrailingWs_decomp x]
  exact List.sublist_append_left _ _

lemma jsTrim_sublist (l : List Char) : List.Sublist (jsTrim l) l :=
  (dropTrailingWs_sublist (l.dropWhile isWS)).trans (List.dropWhile_sublist isWS)

lemma jsTrim_idem (l : List Char) : jsTrim (jsTrim l) = jsTrim l := by
  have hstep1 : (dropTrailingWs (l.dropWhile isWS)).dropWhile isWS =
      dropTrailingWs (l.dropWhile isWS) := by
    apply dropWhile_eq_self
    intro c hc
    cases hy : dropTrailingWs (l.dropWhile isWS) with
    | nil => rw [hy] at hc; cases hc
    | cons a t =>
      rw [hy] at hc
      cases hc
      have hm : l.dropWhile isWS =
          c :: (t ++ ((l.dropWhile isWS).reverse.takeWhile isWS).reverse) := by
        conv_lhs => rw [dropTrailingWs_decomp (l.dropWhile isWS)]
        rw [hy, List.cons_append]
      exact dropWhile_head_false hm
  have hrevrev : (dropTrailingWs (l.dropWhile isWS)).reverse =
      (l.dropWhile isWS).reverse.dropWhile isWS := List.reverse_reverse _
  have hstep2 : dropTrailingWs (dropTrailingWs (l.dropWhile isWS)) =
      dropTrailingWs (l.dropWhile isWS) := by
    show ((dropTrailingWs (l.dropWhile isWS)).reverse.dropWhile isWS).reverse =
      dropTrailingWs (l.dropWhile isWS)
    rw [hrevrev, dropWhile_idem]
    rfl
  show dropTrailingWs ((dropTrailingWs (l.dropWhile isWS)).dropWhile isWS) =
    dropTrailingWs (l.dropWhile isWS)
  rw [hstep1, hstep2]

lemma pairwiseOK_tail {p : Char → Char → Bool} {a : Char} {l : List Char}
    (h : pairwiseOK p (a :: l) = true) : pairwiseOK p l = true := by
  cases l with
  | nil => rfl
  | cons b t =>
    rw [pairwiseOK, Bool.and_eq_true] at h
    exact h.2

lemma pairwiseOK_append_right {p : Char → Char → Bool} :
    ∀ {xs ys : List Char}, pairwiseOK p (xs ++ ys) = true →
      pairwiseOK p ys = true := by
  intro xs
  induction xs with
  | nil => intro ys h; simpa using h
  | cons x xs ih =>
    intro ys h
    exact ih (pairwiseOK_tail (by simpa using h))

lemma pairwiseOK_append_left {p : Char → Char → Bool} :
    ∀ {xs ys : List Char}, pairwiseOK p (xs ++ ys) = true →
      pairwiseOK p xs = true := by
  intro xs
  induction xs with
  | nil => intro ys _; rfl
  | cons x xs ih =>
    intro ys h
    cases xs with
    | nil => rfl
    | cons y t =>
      rw [List.cons_append, List.cons_append, pairwiseOK, Bool.and_eq_true] at h
      rw [pairwiseOK, Bool.and_eq_true]
      refine ⟨h.1, ?_⟩
      exact ih (by rw [List.cons_append]; exact h.2)

lemma pairwiseOK_cons_of {p : Char → Char → Bool} {a : Char} {l : List Char}
    (hp : ∀ b, p a b = true) (h : pairwiseOK p l = true) :
    pairwiseOK p (a :: l) = true := by
  cases l with
  | nil => rfl
  | cons b t =>
    rw [pairwiseOK, Bool.and_eq_true]
    exact ⟨hp b, h⟩

lemma pairwiseOK_of_snd {p : Char → Char → Bool} :
    ∀ {l : List Char}, (∀ b ∈ l, ∀ a, p a b = true) →
      pairwiseOK p l = true := by
  intro l
  induction l with
  | nil => intro _; rfl
  | cons a l ih =>
    intro h
    cases l with
    | nil => rfl
    | cons b t =>
      rw [pairwiseOK, Bool.and_eq_true]
      exact ⟨h b (by simp) a,
        ih (fun c hc a' => h c (List.mem_cons_of_mem a hc) a')⟩

lemma not_punct_of_ws {c : Char} (h : isWS c = true) : isPunct c = false := by
  cases hp : isPunct c
  · rfl
  · exfalso
    simp only [isPunct, Bool.or_eq_true, beq_iff_eq] at hp
    rcases hp with ((h1 | h1) | h1) | h1 <;> subst h1 <;>
      exact absurd h (by decide)

lemma not_ws_of_punct {c : Char} (h : isPunct c = true) : isWS c = false := by
  cases hw : isWS c
  · rfl
  · exfalso
    simp only [isWS, Bool.or_eq_true, beq_iff_eq] at hw
    rcases hw with ((h1 | h1) | h1) | h1 <;> subst h1 <;>
      exact absurd h (by decide)

lemma stripDelimAux_sublist (op cl : Char) :
    ∀ (l pend : List Char),
      List.Sublist (stripDelimAux op cl pend l) (pend.reverse ++ l) := by
  intro l
  induction l with
  | nil =>
    intro pend
    rw [stripDelimAux]
    simpa using List.Sublist.refl pend.reverse
  | cons c cs ih =>
    intro pend
    cases pend with
    | nil =>
      rw [stripDelimAux]
      split
      · simpa using ih [c]
      · simpa using (ih []).cons₂ c
    | cons p ps =>
      rw [stripDelimAux]
      split
      · have h1 : List.Sublist (stripDelimAux op cl [] cs) cs := by
          simpa using ih []
        exact (h1.trans (List.sublist_cons_self c cs)).trans
          (List.sublist_append_right (p :: ps).reverse (c :: cs))
      · have h2 := ih (c :: p :: ps)
        rw [List.reverse_cons, List.append_assoc] at h2
        simpa using h2

lemma fixPunctAux_sublist :
    ∀ (l pend : List Char),
      List.Sublist (fixPunctAux pend l) (pend.reverse ++ l) := by
  intro l
  induction l with
  | nil =>
    intro pend
    rw [fixPunctAux]
    simpa using List.Sublist.refl pend.reverse
  | cons c cs ih =>
    intro pend
    rw [fixPunctAux]
    split
    · have h2 := ih (c :: pend)
      rw [List.reverse_cons, List.append_assoc] at h2
      simpa using h2
    · split
      · exact ((by simpa using (ih []).cons₂ c :
          List.Sublist (c :: fixPunctAux [] cs) (c :: cs))).trans
          (List.sublist_append_right pend.reverse (c :: cs))
      · exact ((by simpa using (ih []).cons₂ c :
          List.Sublist (c :: fixPunctAux [] cs) (c :: cs))).append_left pend.reverse

lemma hasDelimPair_false_of_not_contains {op cl : Char} :
    ∀ {l : List Char}, l.contains cl = false → hasDelimPair op cl l = false := by
  intro l
  induction l with
  | nil => intro _; rfl
  | cons c cs ih =>
    intro h
    have hc : cs.contains cl = false := by
      cases hcc : cs.contains cl
      · rfl
      · exfalso
        have : (c :: cs).contains cl = true := by
          have : cl ∈ c :: cs :=
            List.mem_cons_of_mem c (List.mem_of_elem_eq_true hcc)
          exact List.elem_eq_true_of_mem this
        rw [h] at this
        cases this
    rw [hasDelimPair, hc, ih hc]
    simp

lemma hasDelimPair_mono {op cl : Char} {xs ys : List Char}
    (hsub : List.Sublist xs ys) (h : hasDelimPair op cl xs = true) :
    hasDelimPair op cl ys = true := by
  induction hsub with
  | slnil => cases h
  | cons a hsub ih =>
    rw [hasDelimPair, ih h]
    simp
  | cons₂ a hsub ih =>
    rw [hasDelimPair] at h
    rcases Bool.or_eq_true_iff.mp h with h1 | h1
    · rw [Bool.and_eq_true] at h1
      have hmem2 := hsub.subset (List.mem_of_elem_eq_true h1.2)
      rw [hasDelimPair]
      simp [h1.1, hmem2]
    · rw [hasDelimPair, ih h1]
      simp

lemma hasDelimPair_false_of_sublist {op cl : Char} {xs ys : List Char}
    (hsub : List.Sublist xs ys) (h : hasDelimPair op cl ys = false) :
    hasDelimPair op cl xs = false := by
  cases hx : hasDelimPair op cl xs
  · rfl
  · rw [hasDelimPair_mono hsub hx] at h
    cases h

lemma stripDelimAux_clean {op cl : Char} (hne : op ≠ cl) :
    ∀ (l pend : List Char), pend.contains cl = false →
      hasDelimPair op cl (stripDelimAux op cl pend l) = false := by
  intro l
  induction l with
  | nil =>
    intro pend hp
    rw [stripDelimAux]
    apply hasDelimPair_false_of_not_contains
    cases hrc : pend.reverse.contains cl
    · rfl
    · exfalso
      have hmem : cl ∈ pend := by
        simpa using List.mem_of_elem_eq_true hrc
      have hc2 : pend.contains cl = true := List.elem_eq_true_of_mem hmem
      rw [hc2] at hp
      cases hp
  | cons c cs ih =>
    intro pend hp
    cases pend with
    | nil =>
      rw [stripDelimAux]
      split
      · next hco =>
        apply ih
        subst hco
        simpa using fun he => hne he.symm
      · next hco =>
        rw [hasDelimPair]
        have h1 : (c == op) = false := beq_eq_false_iff_ne.mpr hco
        rw [h1, ih [] (by rfl)]
        simp
    | cons p ps =>
      rw [stripDelimAux]
      split
      · exact ih [] (by rfl)
      · next hcc =>
        apply ih
        cases hcl : (c :: p :: ps).contains cl
        · rfl
        · exfalso
          rcases List.mem_cons.mp (List.mem_of_elem_eq_true hcl) with he | hm
          · exact hcc he.symm
          · have hc2 : (p :: ps).contains cl = true := List.elem_eq_true_of_mem hm
            rw [hc2] at hp
            cases hp

lemma stripDelim_clean {op cl : Char} (hne : op ≠ cl) (l : List Char) :
    hasDelimPair op cl (stripDelim op cl l) = false :=
  stripDelimAux_clean hne l [] (by rfl)

lemma pairwiseWP_append {l₁ l₂ : List Char}
    (h₁ : ∀ x ∈ l₁, isWS x = true)
    (h₂ : pairwiseOK (fun a b => !(isWS a && isPunct b)) l₂ = true)
    (hhd : ∀ c, l₂.head? = some c → isPunct c = false) :
    pairwiseOK (fun a b => !(isWS a && isPunct b)) (l₁ ++ l₂) = true := by
  induction l₁ with
  | nil => simpa using h₂
  | cons a l₁ ih =>
    have htail := ih (fun x hx => h₁ x (List.mem_cons_of_mem a hx))
    rw [List.cons_append]
    cases hl : l₁ ++ l₂ with
    | nil => rfl
    | cons b t =>
      have hb : isPunct b = false := by
        cases l₁ with
        | nil =>
          simp only [List.nil_append] at hl
          exact hhd b (by rw [hl]; rfl)
        | cons a' l₁' =>
          rw [List.cons_append] at hl
          injection hl with hb1 hlt
          rw [← hb1]
          exact not_punct_of_ws (h₁ a' (by simp))
      rw [hl] at htail
      rw [pairwiseOK, Bool.and_eq_true]
      exact ⟨by simp [hb], htail⟩

lemma fixPunctAux_wp :
    ∀ (l pend : List Char), (∀ x ∈ pend, isWS x = true) →
      pairwiseOK (fun a b => !(isWS a && isPunct b)) (fixPunctAux pend l) = true := by
  intro l
  induction l with
  | nil =>
    intro pend hp
    rw [fixPunctAux]
    apply pairwiseOK_of_snd
    intro b hb a
    have hbw : isWS b = true := hp b (by simpa using hb)
    simp [not_punct_of_ws hbw]
  | cons c cs ih =>
    intro pend hp
    rw [fixPunctAux]
    split
    · next hws =>
      exact ih (c :: pend) (by
        intro x hx
        rcases List.mem_cons.mp hx with rfl | hx
        · exact hws
        · exact hp x hx)
    · next hws =>
      split
      · next hpc =>
        apply pairwiseOK_cons_of
        · intro b
          simp [not_ws_of_punct hpc]
        · exact ih [] (by intro x hx; cases hx)
      · next hpc =>
        apply pairwiseWP_append (fun x hx => hp x (by simpa using hx))
        · apply pairwiseOK_cons_of
          · intro b
            simp [Bool.eq_false_iff.mpr hws]
          · exact ih [] (by intro x hx; cases hx)
        · intro d hd
          cases hd
          exact Bool.eq_false_iff.mpr hpc

lemma pairwiseOK_jsTrim {p : Char → Char → Bool} {l : List Char}
    (h : pairwiseOK p l = true) : pairwiseOK p (jsTrim l) = true := by
  have h1 : pairwiseOK p (l.dropWhile isWS) = true := by
    apply @pairwiseOK_append_right p (l.takeWhile isWS) (l.dropWhile isWS)
    rw [List.takeWhile_append_dropWhile]
    exact h
  unfold jsTrim
  apply @pairwiseOK_append_left p (dropTrailingWs (l.dropWhile isWS))
    (((l.dropWhile isWS).reverse.takeWhile isWS).reverse)
  rw [← dropTrailingWs_decomp]
  exact h1

lemma cleanPasses_post (z : List Char) :
    hasDelimPair '[' ']'
      (jsTrim (fixPunct (stripDelim '(' ')' (stripDelim '[' ']' z)))) = false ∧
    hasDelimPair '(' ')'
      (jsTrim (fixPunct (stripDelim '(' ')' (stripDelim '[' ']' z)))) = false ∧
    pairwiseOK (fun a b => !(isWS a && isPunct b))
      (jsTrim (fixPunct (stripDelim '(' ')' (stripDelim '[' ']' z)))) = true ∧
    jsTrim (jsTrim (fixPunct (stripDelim '(' ')' (stripDelim '[' ']' z)))) =
      jsTrim (fixPunct (stripDelim '(' ')' (stripDelim '[' ']' z))) := by
  have hsubP : List.Sublist (stripDelim '(' ')' (stripDelim '[' ']' z))
      (stripDelim '[' ']' z) := by
    simpa using stripDelimAux_sublist '(' ')' (stripDelim '[' ']' z) []
  have hsubF : List.Sublist (fixPunct (stripDelim '(' ')' (stripDelim '[' ']' z)))
      (stripDelim '(' ')' (stripDelim '[' ']' z)) := by
    simpa using fixPunctAux_sublist (stripDelim '(' ')' (stripDelim '[' ']' z)) []
  have hsubT := jsTrim_sublist (fixPunct (stripDelim '(' ')' (stripDelim '[' ']' z)))
  refine ⟨?_, ?_, ?_, jsTrim_idem _⟩
  · exact hasDelimPair_false_of_sublist
      ((hsubT.trans hsubF).trans hsubP)
      (stripDelim_clean (by decide) z)
  · exact hasDelimPair_false_of_sublist
      (hsubT.trans hsubF)
      (stripDelim_clean (by decide) (stripDelim '[' ']' z))
  · exact pairwiseOK_jsTrim
      (fixPunctAux_wp (stripDelim '(' ')' (stripDelim '[' ']' z)) []
        (by intro x hx; cases hx))

/-- C8 (counterexample): the claim says every maximal whitespace run in the
output of `cleanTranscript` is a single space.  Annotation stripping runs
after whitespace collapsing and reintroduces adjacent spaces:
`cleanTranscript "a [b] c" = "a  c"`, whose output contains the whitespace
run `"  "` of length two. -/
theorem cleanTranscript_wsRun_counterexample :
    cleanTranscript "a [b] c" = "a  c" ∧
    noWsRun (cleanTranscript "a [b] c") = false := by
  exact ⟨by decide, by decide⟩

/-- C8 (amended): for every input string, the output of `cleanTranscript`
contains no bracketed `[...]` annotation and no parenthetical `(...)`
annotation (not even an opening delimiter later followed by a closing one),
has no whitespace immediately before the punctuation characters `, . ! ?`,
and is trimmed.  The whitespace-collapsing pass runs first, so whitespace
runs present in the input are collapsed, but annotation stripping can
reintroduce double spaces into the output (see the counterexample), so "no
whitespace runs" does not hold of the output in general. -/
theorem cleanTranscript_postconditions (s : String) :
    hasDelimPair '[' ']' (cleanTranscript s).data = false ∧
    hasDelimPair '(' ')' (cleanTranscript s).data = false ∧
    noWsBeforePunct (cleanTranscript s) = true ∧
    jsTrim (cleanTranscript s).data = (cleanTranscript s).data := by
  unfold cleanTranscript
  split
  · exact ⟨rfl, rfl, rfl, rfl⟩
  · exact cleanPasses_post (collapseWs s.data)

/-! ## Content Generation Client (`src/lib/services/aiService.ts`)

The Gemini capability is modelled at the parse boundary: one generation
attempt either yields a structurally parsed `GeneratedLesson` (the successful
`parseAIResponse` result) or nothing (`null` from `generateWithGemini`,
covering a thrown model call, unparseable JSON, and structurally invalid
JSON alike, all of which are caught inside `generateWithGemini`).  The
oracle is indexed by the attempt number.  In the typed embedding the `catch`
of `generateLessonContent` is unreachable (its `try` body cannot throw), and
the `try/catch` of `validateGeneratedContent` is likewise vacuous. -/

structure QuizQuestion where
  question : String
  options : List String
  correctAnswer : Int
  explanation : String
  deriving Repr, DecidableEq

structure SectionQuiz where
  questions : List QuizQuestion
  deriving Repr, DecidableEq

structure GeneratedSection where
  title : String
  summary : String
  learningObjectives : List String
  content : String
  quiz : SectionQuiz
  deriving Repr, DecidableEq

structure GeneratedLesson where
  title : String
  sections : List GeneratedSection
  totalSections : Nat
  deriving Repr, DecidableEq

structure AIGenerationResponse where
  success : Bool
  lesson : Option GeneratedLesson := none
  error : Option String := none
  deriving Repr, DecidableEq

/-- The per-question checks of `validateGeneratedContent`: question text
present, exactly 4 options, explanation present.  The `!question.options`
and `typeof question.correctAnswer !== "number"` tests are vacuous in the
typed embedding; the source does NOT range-check `correctAnswer` here
(unlike `parseAIResponse`). -/
def validQuestion (q : QuizQuestion) : Bool :=
  !(q.question == "") && (q.options.length == 4) && !(q.explanation == "")

/-- The per-section checks of `validateGeneratedContent`. -/
def validSection (s : GeneratedSection) : Bool :=
  !(s.title == "") && !(s.summary == "") && !(s.content == "") &&
    !s.learningObjectives.isEmpty &&
    decide (200 ≤ s.content.length) &&
    (s.quiz.questions.length == 5) &&
    s.quiz.questions.all validQuestion

/-- `validateGeneratedContent(lesson)`. -/
def validateGeneratedContent (lesson : GeneratedLesson) : Bool :=
  !(lesson.title == "") && !lesson.sections.isEmpty &&
    lesson.sections.all validSection

/-- Number of maximal whitespace runs; the flag records whether the previous
character was whitespace. -/
def countRunsAux : Bool → List Char → Nat
  | _, [] => 0
  | inRun, c :: cs =>
    if isWS c then (if inRun then 0 else 1) + countRunsAux true cs
    else countRunsAux false cs

/-- `transcript.split(/\s+/).length`: JS `split` yields one field per
whitespace-run gap plus one, counting the empty fields produced by leading
and trailing runs. -/
def jsSplitWsCount (s : String) : Nat :=
  countRunsAux false s.data + 1

/-- `determineSectionCount(transcript)`. -/
def determineSectionCount (transcript : String) : Nat :=
  if jsSplitWsCount transcript < 500 then 2
  else if jsSplitWsCount transcript < 1500 then 3
  else if jsSplitWsCount transcript < 3000 then 4
  else 5

/-- The five quiz questions of every mock section. -/
def mockQuizQuestions : List QuizQuestion :=
  [ { question := "What is the primary purpose of variables in programming?"
    , options :=
        [ "To store and manage data"
        , "To make code look complex"
        , "To slow down programs"
        , "To replace functions" ]
    , correctAnswer := 0
    , explanation := "Variables are containers that store data values, making it easy to manage and manipulate information throughout your program." }
  , { question := "Which analogy best describes learning programming?"
    , options :=
        [ "Like riding a bicycle"
        , "Like learning a new language"
        , "Like solving a math problem"
        , "Like playing a video game" ]
    , correctAnswer := 1
    , explanation := "Programming is like learning a new language because it has its own vocabulary, grammar, and structure that takes time to master." }
  , { question := "What makes code maintainable?"
    , options :=
        [ "Using complex algorithms"
        , "Writing longer functions"
        , "Organization and readability"
        , "Adding more variables" ]
    , correctAnswer := 2
    , explanation := "Well-organized and readable code is easier to understand, debug, and modify, making it more maintainable over time." }
  , { question := "Functions in programming are best described as:"
    , options :=
        [ "Decorative elements"
        , "Reusable blocks of code"
        , "Error messages"
        , "Variable containers" ]
    , correctAnswer := 1
    , explanation := "Functions are reusable blocks of code that perform specific tasks, helping to organize code and avoid repetition." }
  , { question := "Why are programming fundamentals important?"
    , options :=
        [ "They are required by law"
        , "They make programs run faster"
        , "They provide foundation for advanced concepts"
        , "They are the only concepts you need" ]
    , correctAnswer := 2
    , explanation := "Programming fundamentals provide the foundation that all advanced concepts build upon, making them essential for long-term success." } ]

/-- The markdown content of every mock section (the template literal of
`generateMockContent`). -/
def mockSectionContent : String :=
  "# Programming Fundamentals\n\nWelcome to this section on programming fundamentals! In this part of our lesson, we\x27ll explore the core concepts that every programmer needs to understand.\n\n## What You\x27ll Learn\n\nProgramming is like learning a new language - it has its own vocabulary, grammar, and structure. Just as you wouldn\x27t expect to become fluent in French overnight, becoming proficient in programming takes time and practice.\n\n## Key Concepts\n\nHere are the main ideas we\x27ll cover:\n\n- **Variables**: Think of these as containers that hold information\n- **Functions**: Reusable blocks of code that perform specific tasks\n- **Logic**: The decision-making process in your programs\n\n## Practical Examples\n\nLet\x27s look at a simple example. Imagine you\x27re creating a calculator. You\x27d need:\n\n1. Variables to store the numbers\n2. Functions to perform calculations\n3. Logic to handle different operations\n\nThis approach makes your code organized, readable, and maintainable.\n\n## Why This Matters\n\nUnderstanding these fundamentals will help you tackle more complex programming challenges with confidence. Every advanced concept builds on these basics."

/-- One element of the `Array.from({ length }, (_, index) => ...)` of
`generateMockContent`. -/
def mkMockSection (index : Nat) : GeneratedSection :=
  { title := "Section " ++ toString (index + 1) ++ ": Core Concepts"
  , summary := "This section covers fundamental programming concepts and practical applications."
  , learningObjectives :=
      [ "Understand basic programming principles"
      , "Learn practical implementation techniques"
      , "Apply concepts to real-world scenarios" ]
  , content := mockSectionContent
  , quiz := { questions := mockQuizQuestions } }

/-- The deterministic mock lesson of `generateMockContent`. -/
def mockLesson (transcript : String) (videoTitle : Option String) : GeneratedLesson :=
  { title := jsOr videoTitle "Introduction to Programming Concepts"
  , totalSections := determineSectionCount transcript
  , sections := (List.range (determineSectionCount transcript)).map mkMockSection }

/-- `generateMockContent(transcript, videoTitle)`. -/
def generateMockContent (transcript : String) (videoTitle : Option String) :
    AIGenerationResponse :=
  { success := true, lesson := some (mockLesson transcript videoTitle) }

/-- `generateLessonContent(transcript, videoTitle)`: length gate, then one
capability call (attempt `attempt` of the oracle). -/
def generateLessonContent (gemini : Nat → Option GeneratedLesson)
    (attempt : Nat) (transcript : String) (videoTitle : Option String) :
    AIGenerationResponse :=
  if (jsTrimStr transcript).length < 100 then
    { success := false,
      error := some "Transcript is too short or empty for content generation" }
  else
    match gemini attempt with
    | none => { success := false, error := some "Failed to generate content with AI" }
    | some lesson => { success := true, lesson := some lesson }

/-- The `for (attempt = 1; attempt <= maxRetries)` loop of
`generateContentWithRetry`; fuel counts the remaining attempts, and the
fuel-0 branch is the fall-through to `generateMockContent`. -/
def genRetryGo (gemini : Nat → Option GeneratedLesson) (transcript : String)
    (videoTitle : Option String) : Nat → Nat → AIGenerationResponse
  | _, 0 => generateMockContent transcript videoTitle
  | attempt, fuel + 1 =>
    if (generateLessonContent gemini attempt transcript videoTitle).success
        && (match (generateLessonContent gemini attempt transcript videoTitle).lesson with
            | some l => validateGeneratedContent l
            | none => false) then
      generateLessonContent gemini attempt transcript videoTitle
    else genRetryGo gemini transcript videoTitle (attempt + 1) fuel

/-- `generateContentWithRetry(transcript, videoTitle, maxRetries = 2)`. -/
def generateContentWithRetry (gemini : Nat → Option GeneratedLesson)
    (transcript : String) (videoTitle : Option String := none)
    (maxRetries : Nat := 2) : AIGenerationResponse :=
  genRetryGo gemini transcript videoTitle 1 maxRetries

/-! ### Lemmas about content validation and generation retry -/

lemma section_title_ne (s t : String) : (("Section " ++ s ++ t) == "") = false := by
  rw [beq_eq_false_iff_ne]
  intro h
  have hd := congrArg String.data h
  rw [String.data_append, String.data_append] at hd
  rcases List.append_eq_nil.mp hd with ⟨h1, _⟩
  rcases List.append_eq_nil.mp h1 with ⟨h2, _⟩
  exact absurd h2 (by decide)

lemma jsOr_nonempty (vt : Option String) (d : String) (hd : (d == "") = false) :
    (jsOr vt d == "") = false := by
  cases vt with
  | none => exact hd
  | some s =>
    rw [jsOr]
    split
    · exact hd
    · next h => exact Bool.eq_false_iff.mpr h

lemma determineSectionCount_pos (t : String) : 0 < determineSectionCount t := by
  unfold determineSectionCount
  split_ifs <;> norm_num

set_option maxRecDepth 8192 in
lemma mkMockSection_valid (i : Nat) : validSection (mkMockSection i) = true := by
  unfold validSection mkMockSection
  dsimp only
  rw [section_title_ne]
  decide

lemma mockLesson_valid (t : String) (vt : Option String) :
    validateGeneratedContent (mockLesson t vt) = true := by
  unfold validateGeneratedContent mockLesson
  dsimp only
  rw [jsOr_nonempty vt _ (by decide)]
  have h2 : ((List.range (determineSectionCount t)).map mkMockSection).isEmpty
      = false := by
    have hpos := determineSectionCount_pos t
    cases hr : ((List.range (determineSectionCount t)).map mkMockSection).isEmpty
    · rfl
    · exfalso
      rw [List.isEmpty_iff, List.map_eq_nil_iff, List.range_eq_nil] at hr
      omega
  have h3 : ((List.range (determineSectionCount t)).map mkMockSection).all
      validSection = true := by
    rw [List.all_eq_true]
    intro s hs
    obtain ⟨i, -, rfl⟩ := List.mem_map.mp hs
    exact mkMockSection_valid i
  rw [h2, h3]
  rfl

/-- A 200-character content block used by the concrete C1 lessons. -/
def longContent : String := ⟨List.replicate 200 'x'⟩

/-- A well-formed question. -/
def okQuestion : QuizQuestion :=
  { question := "q", options := ["a", "b", "c", "d"], correctAnswer := 0,
    explanation := "e" }

/-- A question whose only defect is `correctAnswer = 5`, outside `[0,3]`. -/
def badAnswerQuestion : QuizQuestion :=
  { question := "q", options := ["a", "b", "c", "d"], correctAnswer := 5,
    explanation := "e" }

/-- A lesson valid in every respect except one out-of-range correct-answer
index. -/
def badAnswerLesson : GeneratedLesson :=
  { title := "t"
  , totalSections := 1
  , sections :=
      [ { title := "s", summary := "sum", learningObjectives := ["o"]
        , content := longContent
        , quiz := { questions :=
            [badAnswerQuestion, okQuestion, okQuestion, okQuestion, okQuestion] } } ] }

/-- C1 (counterexample): a `GeneratedLesson` whose only out-of-spec feature
is a correct-answer index of 5 — outside `[0,3]` — still passes
`validateGeneratedContent`, so the claim that an out-of-range correct-answer
index must fail validation is false: the validator checks the option count
and (in the source) the number-ness of `correctAnswer`, but never its range
(the range is checked only at parse time, in `parseAIResponse`). -/
theorem validateGeneratedContent_range_counterexample :
    validateGeneratedContent badAnswerLesson = true ∧
    badAnswerLesson.sections.all (fun s => s.quiz.questions.all
      (fun q => decide (0 ≤ q.correctAnswer ∧ q.correctAnswer ≤ 3))) = false :=
  ⟨by set_option maxRecDepth 8192 in decide, by decide⟩

/-- C1 (amended): `validateGeneratedContent` returns `false` for every
lesson with a section that is missing a learning objective, has a number of
quiz questions different from 5, or has a question with a number of options
different from 4.  (The fourth condition of the original claim — an
out-of-range correct-answer index — is not checked by this validator; see
the counterexample.) -/
theorem validateGeneratedContent_completeness (lesson : GeneratedLesson)
    (s : GeneratedSection) (hs : s ∈ lesson.sections)
    (hbad : s.learningObjectives = [] ∨ s.quiz.questions.length ≠ 5 ∨
      ∃ q ∈ s.quiz.questions, q.options.length ≠ 4) :
    validateGeneratedContent lesson = false := by
  have hsec : validSection s = false := by
    rcases hbad with h | h | ⟨q, hq, h⟩
    · unfold validSection
      rw [h]
      simp
    · unfold validSection
      have hne : (s.quiz.questions.length == 5) = false :=
        beq_eq_false_iff_ne.mpr h
      rw [hne]
      simp
    · unfold validSection
      have hq4 : s.quiz.questions.all validQuestion = false := by
        cases hall : s.quiz.questions.all validQuestion
        · rfl
        · exfalso
          have hv := List.all_eq_true.mp hall q hq
          unfold validQuestion at hv
          cases ho : (q.options.length == 4)
          · rw [ho] at hv
            simp at hv
          · exact h (by simpa using ho)
      rw [hq4]
      simp
  cases hval : validateGeneratedContent lesson
  · rfl
  · exfalso
    unfold validateGeneratedContent at hval
    cases hall : lesson.sections.all validSection
    · rw [hall] at hval
      simp at hval
    · have := List.all_eq_true.mp hall s hs
      rw [hsec] at this
      cases this

/-- A section with only four quiz questions. -/
def fourQuestionSection : GeneratedSection :=
  { title := "s", summary := "sum", learningObjectives := ["o"]
  , content := longContent
  , quiz := { questions := [okQuestion, okQuestion, okQuestion, okQuestion] } }

/-- A lesson whose single section has only four quiz questions. -/
def fourQuestionLesson : GeneratedLesson :=
  { title := "t", totalSections := 1, sections := [fourQuestionSection] }

/-- Witness for the amended C1: a section with 4 questions fails validation. -/
theorem validateGeneratedContent_completeness_witness :
    validateGeneratedContent fourQuestionLesson = false :=
  validateGeneratedContent_completeness fourQuestionLesson fourQuestionSection
    (by simp [fourQuestionLesson]) (Or.inr (Or.inl (by decide)))

lemma genRetryGo_allFail (gemini : Nat → Option GeneratedLesson)
    (transcript : String) (videoTitle : Option String)
    (hbad : ∀ n, gemini n = none)
    (hlen : 100 ≤ (jsTrimStr transcript).length) :
    ∀ fuel attempt, genRetryGo gemini transcript videoTitle attempt fuel =
      generateMockContent transcript videoTitle := by
  intro fuel
  induction fuel with
  | zero => intro attempt; rfl
  | succ fuel ih =>
    intro attempt
    rw [genRetryGo]
    have hgen : generateLessonContent gemini attempt transcript videoTitle =
        { success := false, error := some "Failed to generate content with AI" } := by
      unfold generateLessonContent
      rw [if_neg (by omega), hbad attempt]
    rw [hgen]
    rw [if_neg (fun hcon => Bool.noConfusion hcon)]
    exact ih (attempt + 1)

/-- C2: fallback guarantee.  For every transcript of at least 100 trimmed
characters, if the generative-text capability produces unparseable or
structurally invalid output on every attempt (the oracle returns nothing,
covering both), `generateContentWithRetry` exhausts its bounded retries and
still returns `success = true` carrying the deterministic mock lesson, which
satisfies `validateGeneratedContent`; it never returns `success = false` for
a parse failure. -/
theorem generateContentWithRetry_fallback
    (gemini : Nat → Option GeneratedLesson) (transcript : String)
    (videoTitle : Option String) (maxRetries : Nat)
    (hbad : ∀ n, gemini n = none)
    (hlen : 100 ≤ (jsTrimStr transcript).length) :
    (generateContentWithRetry gemini transcript videoTitle maxRetries).success = true ∧
    (generateContentWithRetry gemini transcript videoTitle maxRetries).lesson =
      some (mockLesson transcript videoTitle) ∧
    validateGeneratedContent (mockLesson transcript videoTitle) = true := by
  unfold generateContentWithRetry
  rw [genRetryGo_allFail gemini transcript videoTitle hbad hlen maxRetries 1]
  exact ⟨rfl, rfl, mockLesson_valid transcript videoTitle⟩

/-- The always-failing generation oracle. -/
def gemNone : Nat → Option GeneratedLesson := fun _ => none

/-- A 120-character transcript. -/
def transcript120 : String := ⟨List.replicate 120 'a'⟩

/-- Witness for C2 at a concrete 120-character transcript. -/
theorem generateContentWithRetry_fallback_witness :
    (generateContentWithRetry gemNone transcript120 none 2).success = true ∧
    (generateContentWithRetry gemNone transcript120 none 2).lesson =
      some (mockLesson transcript120 none) ∧
    validateGeneratedContent (mockLesson transcript120 none) = true :=
  generateContentWithRetry_fallback gemNone transcript120 none 2
    (fun _ => rfl) (by decide)

/-- C10 (implicit claim): the generation stage cannot fail.  For every
transcript (of any length) and every behaviour of the generation oracle —
including returning nothing on every attempt, which covers malformed output,
invalid structures and thrown calls, all caught inside `generateWithGemini` —
`generateContentWithRetry` returns `success = true` together with a lesson
(degrading to the mock lesson on exhaustion); in this total embedding it
also cannot throw.  Consequently the orchestrator branch guarded by
`!aiResult.success || !aiResult.lesson` is unreachable. -/
theorem generateContentWithRetry_total
    (gemini : Nat → Option GeneratedLesson) (transcript : String)
    (videoTitle : Option String) (maxRetries : Nat) :
    (generateContentWithRetry gemini transcript videoTitle maxRetries).success = true ∧
    (generateContentWithRetry gemini transcript videoTitle maxRetries).lesson.isSome = true := by
  unfold generateContentWithRetry
  suffices h : ∀ fuel attempt,
      (genRetryGo gemini transcript videoTitle attempt fuel).success = true ∧
      (genRetryGo gemini transcript videoTitle attempt fuel).lesson.isSome = true from
    h maxRetries 1
  intro fuel
  induction fuel with
  | zero => intro attempt; exact ⟨rfl, rfl⟩
  | succ fuel ih =>
    intro attempt
    rw [genRetryGo]
    split
    · next hcond =>
      rw [Bool.and_eq_true] at hcond
      refine ⟨hcond.1, ?_⟩
      rcases hl : (generateLessonContent gemini attempt transcript videoTitle).lesson with _ | l
      · rw [hl] at hcond
        exact Bool.noConfusion hcond.2
      · rfl
    · exact ih (attempt + 1)

/-! ## Lesson Creation Orchestrator (`lessonService.ts`, `createLessonFromUrl`)

The orchestrator's collaborators are collected in `OrchEnv`: the Prisma
lookup `prisma.lesson.findFirst` (which may throw — `Except.error` — and is
caught by the orchestrator's outer `catch`), the transcript-extraction
oracles consumed by `extractTranscriptWithRetry`, the generation oracle
consumed by `generateContentWithRetry` (which never throws, by
`generateContentWithRetry_total`), and `saveLessonToDatabase` (which catches
its own errors and returns `null` on failure).  `updateProgress` pushes an
immutable record and invokes the optional callback with it, so the callback
stream and the returned `progress` array are the same list by construction;
each branch below carries its accumulated history explicitly. -/

inductive LessonStep where
  | validating
  | extracting
  | generating
  | saving
  | completed
  | error
  deriving Repr, DecidableEq

/-- One `LessonCreationProgress` record. -/
structure LessonCreationProgress where
  step : LessonStep
  message : String
  progress : Nat
  error : Option String := none
  deriving Repr, DecidableEq

/-- A persisted lesson row (opaque to the orchestration claims). -/
structure DbLesson where
  id : Nat
  deriving Repr, DecidableEq

/-- The `LessonCreationResult` shape. -/
structure LessonCreationResult where
  success : Bool
  lesson : Option DbLesson := none
  error : Option String := none
  progress : List LessonCreationProgress := []
  deriving Repr, DecidableEq

/-- The orchestrator's collaborators for one invocation. -/
structure OrchEnv where
  findLesson : String → Except String (Option DbLesson)
  calls : Nat → SupadataEnv
  checks : Nat → JobCheck
  gemini : Nat → Option GeneratedLesson
  save : GeneratedLesson → String → String → Option DbLesson

def progressValidating : LessonCreationProgress :=
  ⟨.validating, "Validating YouTube URL...", 10, none⟩
def progressExtracting30 : LessonCreationProgress :=
  ⟨.extracting, "Extracting video transcript...", 30, none⟩
def progressExtracting50 : LessonCreationProgress :=
  ⟨.extracting, "Transcript extracted successfully", 50, none⟩
def progressGenerating60 : LessonCreationProgress :=
  ⟨.generating, "Generating lesson content with AI...", 60, none⟩
def progressGenerating80 : LessonCreationProgress :=
  ⟨.generating, "Lesson content generated successfully", 80, none⟩
def progressSaving90 : LessonCreationProgress :=
  ⟨.saving, "Saving lesson to database...", 90, none⟩
def progressCompleted100 : LessonCreationProgress :=
  ⟨.completed, "Lesson created successfully!", 100, none⟩

/-- Dead default used under the `aiResult.lesson` guard. -/
def emptyGeneratedLesson : GeneratedLesson := ⟨"", [], 0⟩

/-- `createLessonFromUrl(videoUrl, progressCallback?)`.  A thrown exception
(here: only the store lookup, or the unreachable `normalizeYouTubeUrl` throw
guarded by the `isValid` check) lands in the outer `catch`, which appends
the "Unexpected error" event at progress 0 and returns the uniform failure
shape. -/
def createLessonFromUrl (env : OrchEnv) (videoUrl : String) : LessonCreationResult :=
  if !(parseYouTubeUrl videoUrl).isValid then
    { success := false
    , error := some "Invalid YouTube URL provided"
    , progress := [progressValidating,
        ⟨.error, "Invalid YouTube URL provided", 0,
          some "Please provide a valid YouTube video URL"⟩] }
  else
    match normalizeYouTubeUrl videoUrl with
    | .error msg =>
      { success := false
      , error := some msg
      , progress := [progressValidating,
          ⟨.error, "Unexpected error during lesson creation", 0, some msg⟩] }
    | .ok normalizedUrl =>
      match env.findLesson (parseYouTubeUrl videoUrl).videoId with
      | .error msg =>
        { success := false
        , error := some msg
        , progress := [progressValidating,
            ⟨.error, "Unexpected error during lesson creation", 0, some msg⟩] }
      | .ok (some _) =>
        { success := false
        , error := some "Lesson already exists for this video"
        , progress := [progressValidating,
            ⟨.error, "Lesson already exists for this video", 0,
              some "A lesson has already been created for this video"⟩] }
      | .ok none =>
        if !((extractTranscriptWithRetry env.calls env.checks 3 5000).success
            && truthyStr (extractTranscriptWithRetry env.calls env.checks 3 5000).transcript) then
          { success := false
          , error := some (jsOr (extractTranscriptWithRetry env.calls env.checks 3 5000).error
              "Failed to extract transcript")
          , progress := [progressValidating, progressExtracting30,
              ⟨.error, "Failed to extract transcript", 30,
                some (jsOr (extractTranscriptWithRetry env.calls env.checks 3 5000).error
                  "Could not extract transcript from video")⟩] }
        else
          if !((generateContentWithRetry env.gemini
                ((extractTranscriptWithRetry env.calls env.checks 3 5000).transcript.getD "")
                (some ("Lesson from " ++ (parseYouTubeUrl videoUrl).videoId)) 3).success
              && (generateContentWithRetry env.gemini
                ((extractTranscriptWithRetry env.calls env.checks 3 5000).transcript.getD "")
                (some ("Lesson from " ++ (parseYouTubeUrl videoUrl).videoId)) 3).lesson.isSome) then
            { success := false
            , error := some (jsOr (generateContentWithRetry env.gemini
                ((extractTranscriptWithRetry env.calls env.checks 3 5000).transcript.getD "")
                (some ("Lesson from " ++ (parseYouTubeUrl videoUrl).videoId)) 3).error
                "Failed to generate lesson content")
            , progress := [progressValidating, progressExtracting30, progressExtracting50,
                progressGenerating60,
                ⟨.error, "Failed to generate lesson content", 60,
                  some (jsOr (generateContentWithRetry env.gemini
                    ((extractTranscriptWithRetry env.calls env.checks 3 5000).transcript.getD "")
                    (some ("Lesson from " ++ (parseYouTubeUrl videoUrl).videoId)) 3).error
                    "AI content generation failed")⟩] }
          else
            match env.save
              ((generateContentWithRetry env.gemini
                ((extractTranscriptWithRetry env.calls env.checks 3 5000).transcript.getD "")
                (some ("Lesson from " ++ (parseYouTubeUrl videoUrl).videoId)) 3).lesson.getD
                  emptyGeneratedLesson)
              normalizedUrl (parseYouTubeUrl videoUrl).videoId with
            | none =>
              { success := false
              , error := some "Failed to save lesson to database"
              , progress := [progressValidating, progressExtracting30, progressExtracting50,
                  progressGenerating60, progressGenerating80, progressSaving90,
                  ⟨.error, "Failed to save lesson to database", 90,
                    some "Database operation failed"⟩] }
            | some savedLesson =>
              { success := true
              , lesson := some savedLesson
              , progress := [progressValidating, progressExtracting30, progressExtracting50,
                  progressGenerating60, progressGenerating80, progressSaving90,
                  progressCompleted100] }

/-! ### Theorems about the orchestrator -/

/-- C3: happy-path progress sequence.  Whenever `createLessonFromUrl`
returns `success = true`, the emitted progress history is exactly the seven
events with steps (validating, extracting, extracting, generating,
generating, saving, completed) and progress values (10, 30, 50, 60, 80, 90,
100), in that order — in particular the values are non-decreasing, the
final step is `completed`, and no stage event is reordered or duplicated. -/
theorem createLessonFromUrl_happy_progress (env : OrchEnv) (videoUrl : String) :
    (createLessonFromUrl env videoUrl).success = true →
    (createLessonFromUrl env videoUrl).progress.map (fun e => (e.step, e.progress)) =
      [(.validating, 10), (.extracting, 30), (.extracting, 50), (.generating, 60),
       (.generating, 80), (.saving, 90), (.completed, 100)] ∧
    ((createLessonFromUrl env videoUrl).progress.getLast?).map (fun e => e.step) =
      some .completed := by
  unfold createLessonFromUrl
  split
  · intro h; simpa using h
  · split
    · intro h; simpa using h
    · split
      · intro h; simpa using h
      · intro h; simpa using h
      · split
        · intro h; simpa using h
        · split
          · intro h; simpa using h
          · split
            · intro h; simpa using h
            · intro _
              exact ⟨rfl, rfl⟩

/-- Environment for the C3 witness: an inline transcript, a failing
generation capability (degrading to the mock lesson), and a successful
store. -/
def envHappy : OrchEnv :=
  { findLesson := fun _ => .ok none
  , calls := fun _ => ⟨.inline (some transcript120), .status .processing none none⟩
  , checks := fun _ => .status .processing none none
  , gemini := fun _ => none
  , save := fun _ _ _ => some ⟨1⟩ }

/-- Witness for C3 at a concrete successful run. -/
theorem createLessonFromUrl_happy_progress_witness :
    (createLessonFromUrl envHappy "https://youtu.be/dQw4w9WgXcQ").progress.map
        (fun e => (e.step, e.progress)) =
      [(.validating, 10), (.extracting, 30), (.extracting, 50), (.generating, 60),
       (.generating, 80), (.saving, 90), (.completed, 100)] ∧
    ((createLessonFromUrl envHappy "https://youtu.be/dQw4w9WgXcQ").progress.getLast?).map
        (fun e => e.step) = some .completed :=
  createLessonFromUrl_happy_progress envHappy "https://youtu.be/dQw4w9WgXcQ"
    (by set_option maxRecDepth 8192 in decide)

/-- C6: uniform failure result and exception containment.  The embedding of
`createLessonFromUrl` is a total function — every internal failure mode,
including a throwing store lookup, is folded into the returned record, so no
exception escapes — and every failing invocation returns the uniform shape:
`success = false`, an `error` string present, and `progress` holding the
accumulated history, which starts with the `validating` event and ends with
an `error` event. -/
theorem createLessonFromUrl_failure_shape (env : OrchEnv) (videoUrl : String) :
    (createLessonFromUrl env videoUrl).success = false →
    (createLessonFromUrl env videoUrl).error.isSome = true ∧
    ((createLessonFromUrl env videoUrl).progress.head?).map (fun e => e.step) =
      some .validating ∧
    ((createLessonFromUrl env videoUrl).progress.getLast?).map (fun e => e.step) =
      some .error := by
  unfold createLessonFromUrl
  split
  · intro _; exact ⟨rfl, rfl, rfl⟩
  · split
    · intro _; exact ⟨rfl, rfl, rfl⟩
    · split
      · intro _; exact ⟨rfl, rfl, rfl⟩
      · intro _; exact ⟨rfl, rfl, rfl⟩
      · split
        · intro _; exact ⟨rfl, rfl, rfl⟩
        · split
          · intro _; exact ⟨rfl, rfl, rfl⟩
          · split
            · intro _; exact ⟨rfl, rfl, rfl⟩
            · intro h; simpa using h

/-- Witness for C6 at a malformed URL. -/
theorem createLessonFromUrl_failure_shape_witness :
    (createLessonFromUrl envHappy "not-a-url").error.isSome = true ∧
    ((createLessonFromUrl envHappy "not-a-url").progress.head?).map
      (fun e => e.step) = some .validating ∧
    ((createLessonFromUrl envHappy "not-a-url").progress.getLast?).map
      (fun e => e.step) = some .error :=
  createLessonFromUrl_failure_shape envHappy "not-a-url" (by decide)

/-- C7: duplicate rejection.  If the store already holds a lesson for the
video id extracted from the submitted URL, `createLessonFromUrl` returns
the fully determined failure record: `success = false` with the
"already exists" error, whose error progress event carries progress 0.  The
right-hand side is a constant independent of `env.calls`, `env.checks`,
`env.gemini` and `env.save`, so the invocation makes zero (observable) calls
to the transcript-extraction and content-generation clients. -/
theorem createLessonFromUrl_duplicate (env : OrchEnv) (videoUrl id : String)
    (dbL : DbLesson)
    (hid : extractVideoId videoUrl = some id)
    (hdup : env.findLesson id = .ok (some dbL)) :
    createLessonFromUrl env videoUrl =
      { success := false
      , lesson := none
      , error := some "Lesson already exists for this video"
      , progress := [progressValidating,
          ⟨.error, "Lesson already exists for this video", 0,
            some "A lesson has already been created for this video"⟩] } := by
  have hparse : parseYouTubeUrl videoUrl = ⟨id, videoUrl, true⟩ := by
    unfold parseYouTubeUrl
    rw [hid]
  unfold createLessonFromUrl
  rw [hparse, normalizeYouTubeUrl_ok hid]
  dsimp only
  rw [hdup]
  rfl

/-- Environment for the C7 witness: the store is pre-seeded with a lesson
for `dQw4w9WgXcQ`. -/
def envDup : OrchEnv :=
  { findLesson := fun v => .ok (if v == "dQw4w9WgXcQ" then some ⟨7⟩ else none)
  , calls := fun _ => ⟨.inline (some transcript120), .status .processing none none⟩
  , checks := fun _ => .status .processing none none
  , gemini := fun _ => none
  , save := fun _ _ _ => some ⟨1⟩ }

/-- Witness for C7: a URL variant resolving to the pre-seeded id. -/
theorem createLessonFromUrl_duplicate_witness :
    createLessonFromUrl envDup "https://youtu.be/dQw4w9WgXcQ" =
      { success := false
      , lesson := none
      , error := some "Lesson already exists for this video"
      , progress := [progressValidating,
          ⟨.error, "Lesson already exists for this video", 0,
            some "A lesson has already been created for this video"⟩] } :=
  createLessonFromUrl_duplicate envDup "https://youtu.be/dQw4w9WgXcQ" "dQw4w9WgXcQ"
    ⟨7⟩ (by decide) (by rfl)
